import Mathlib

/-!
# Care escalation system: triage, referral lifecycle, broadcast fan-out

Shallow embedding of the backend services of the emergency-referral
system (`app/services/triage_service.py`, `app/services/referral_service.py`,
`app/websocket/manager.py`) together with the data model
(`app/models/patient.py`, `app/models/health_center.py`,
`app/models/referral.py`).  The relational store is modelled as explicit
lists of rows; `query(...).filter(X.id == v).first()` becomes `List.find?`;
session mutation plus commit becomes a functional update of the row list.
Python `datetime.utcnow()` readings are passed in as explicit `Nat`
parameters; Python floats carrying vital signs are modelled as rationals.
Each `raise ValueError(...)` site becomes a constructor of `Err`.
-/

namespace CareEscalation

/-- Triage levels / referral priorities: the string values
"CRITICAL", "URGENT", "NORMAL" used by the services. -/
inductive TriageLevel where
  | CRITICAL
  | URGENT
  | NORMAL
deriving DecidableEq

/-- Referral lifecycle statuses: the string values used by
`referral_service.py` (`CREATED`, `SENT`, `ACCEPTED`, `TRANSFERRED`). -/
inductive Status where
  | CREATED
  | SENT
  | ACCEPTED
  | TRANSFERRED
deriving DecidableEq

/-- Position of a status along the linear lifecycle
CREATED → SENT → ACCEPTED → TRANSFERRED. -/
def statusIdx : Status → Nat
  | .CREATED => 0
  | .SENT => 1
  | .ACCEPTED => 2
  | .TRANSFERRED => 3

/-- Row of the `patients` table (`app/models/patient.py`), restricted to the
fields the triage and referral services read.  Vitals are nullable. -/
structure Patient where
  id : Nat
  chest_pain : Bool
  oxygen_saturation : Option ℚ
  heart_rate : Option Int
  blood_pressure_systolic : Option Int
  triage_level : Option TriageLevel
  health_center_id : Nat
deriving DecidableEq

/-- Row of the `health_centers` table (`app/models/health_center.py`).
`center_type` is a free string; the services compare it against the
literals "CHU" and "Centre de Santé". -/
structure HealthCenter where
  id : Nat
  name : String
  center_type : String
deriving DecidableEq

/-- Row of the `referrals` table (`app/models/referral.py`). -/
structure Referral where
  id : Nat
  patient_id : Nat
  from_center_id : Nat
  to_center_id : Nat
  status : Status
  priority : TriageLevel
  reason : Option String
  clinical_notes : Option String
  created_at : Nat
  sent_at : Option Nat
  accepted_at : Option Nat
  transferred_at : Option Nat
  created_by : Nat
  accepted_by : Option Nat
deriving DecidableEq

/-- The database session's visible state: the three tables the services
touch. -/
structure DB where
  patients : List Patient
  health_centers : List HealthCenter
  referrals : List Referral
deriving DecidableEq

/-- One constructor per `raise ValueError(...)` site of the services. -/
inductive Err where
  | PatientNotFound (patient_id : Nat)
  | InvalidHealthCenter
  | DestinationNotCHU
  | ReferralNotFound (referral_id : Nat)
  | InvalidTransition (op : String) (current : Status)
deriving DecidableEq

/-- `db.query(Patient).filter(Patient.id == patient_id).first()`. -/
def DB.findPatient (db : DB) (patient_id : Nat) : Option Patient :=
  db.patients.find? (fun p => p.id == patient_id)

/-- `db.query(HealthCenter).filter(HealthCenter.id == center_id).first()`. -/
def DB.findCenter (db : DB) (center_id : Nat) : Option HealthCenter :=
  db.health_centers.find? (fun c => c.id == center_id)

/-- `db.query(Referral).filter(Referral.id == referral_id).first()`. -/
def DB.findReferral (db : DB) (referral_id : Nat) : Option Referral :=
  db.referrals.find? (fun r => r.id == referral_id)

/-- Commit of an in-place mutation of one referral row: every row whose id
matches the mutated object's id is replaced by it. -/
def updateReferral (db : DB) (r : Referral) : DB :=
  { db with referrals := db.referrals.map (fun q => if q.id == r.id then r else q) }

/-! ## TriageService (`app/services/triage_service.py`) -/

/-- `TriageService.CRITICAL_OXYGEN_THRESHOLD = 90.0`. -/
def CRITICAL_OXYGEN_THRESHOLD : ℚ := 90

/-- `TriageService.assess_triage_level`: rule-based urgency scoring of the
patient's vitals snapshot.  Absent vitals skip their rule. -/
def assess_triage_level (patient : Patient) : TriageLevel :=
  if patient.chest_pain then
    TriageLevel.CRITICAL
  else if patient.oxygen_saturation.any
      (fun o => decide (o < CRITICAL_OXYGEN_THRESHOLD)) then
    TriageLevel.CRITICAL
  else if patient.heart_rate.any
      (fun hr => decide (hr > 150) || decide (hr < 40)) then
    TriageLevel.CRITICAL
  else if patient.blood_pressure_systolic.any
      (fun bp => decide (bp > 180) || decide (bp < 80)) then
    TriageLevel.CRITICAL
  else
    TriageLevel.URGENT

/-- `TriageService.should_create_referral`: CRITICAL patient whose own
health center is a "Centre de Santé". -/
def should_create_referral (patient : Patient) (db : DB) : Bool :=
  if patient.triage_level ≠ some TriageLevel.CRITICAL then
    false
  else
    match db.findCenter patient.health_center_id with
    | none => false
    | some health_center => health_center.center_type == "Centre de Santé"

/-- Rendering of a nullable triage level into the clinical-notes string,
as Python string interpolation renders `patient.triage_level`. -/
def levelName : Option TriageLevel → String
  | none => "None"
  | some TriageLevel.CRITICAL => "CRITICAL"
  | some TriageLevel.URGENT => "URGENT"
  | some TriageLevel.NORMAL => "NORMAL"

/-! ## ReferralService (`app/services/referral_service.py`) -/

/-- The `Referral(...)` row constructed by `ReferralService.create_referral`
once the patient and both centers have resolved: status CREATED, priority
copied from the patient's triage level (CRITICAL when unset), the creation
timestamp set and the three transition timestamps null.  The fresh row id
stands in for the store's autoincrement key. -/
def newReferral (db : DB) (patient_id to_center_id created_by : Nat)
    (reason clinical_notes : Option String) (now : Nat)
    (patient : Patient) (from_center : HealthCenter) : Referral :=
  { id := db.referrals.length + 1
    patient_id := patient_id
    from_center_id := from_center.id
    to_center_id := to_center_id
    status := .CREATED
    priority := patient.triage_level.getD TriageLevel.CRITICAL
    reason := some (reason.getD "Critical case requiring CHU care")
    clinical_notes := clinical_notes
    created_at := now
    sent_at := none
    accepted_at := none
    transferred_at := none
    created_by := created_by
    accepted_by := none }

/-- `ReferralService.create_referral`.  Returns the post-commit database
and either the persisted referral or the raised error. -/
def create_referral (db : DB) (patient_id to_center_id created_by : Nat)
    (reason clinical_notes : Option String) (now : Nat) :
    DB × Except Err Referral :=
  match db.findPatient patient_id with
  | none => (db, .error (.PatientNotFound patient_id))
  | some patient =>
    match db.findCenter patient.health_center_id, db.findCenter to_center_id with
    | some from_center, some to_center =>
      if to_center.center_type ≠ "CHU" then
        (db, .error .DestinationNotCHU)
      else
        let referral := newReferral db patient_id to_center_id created_by
          reason clinical_notes now patient from_center
        ({ db with referrals := db.referrals ++ [referral] }, .ok referral)
    | _, _ => (db, .error .InvalidHealthCenter)

/-- The `db.query(HealthCenter).filter(HealthCenter.center_type == "CHU").first()`
lookup of `auto_create_referral_for_critical_patient`. -/
def findCHU (db : DB) : Option HealthCenter :=
  db.health_centers.find? (fun c => c.center_type == "CHU")

/-- `ReferralService.auto_create_referral_for_critical_patient`: auto-referral
of a CRITICAL patient from a Centre de Santé to the first CHU.  A `ValueError`
raised by the inner `create_referral` propagates to the caller. -/
def auto_create_referral_for_critical_patient (db : DB)
    (patient_id created_by : Nat) (now : Nat) :
    DB × Except Err (Option Referral) :=
  match db.findPatient patient_id with
  | none => (db, .ok none)
  | some patient =>
    if !(should_create_referral patient db) then
      (db, .ok none)
    else
      match findCHU db with
      | none => (db, .ok none)
      | some chu =>
        match create_referral db patient_id chu.id created_by
            (some "Auto-referral: Critical case from Centre de Santé")
            (some ("Patient triage level: " ++ levelName patient.triage_level))
            now with
        | (db2, .ok referral) => (db2, .ok (some referral))
        | (db2, .error e) => (db2, .error e)

/-- `ReferralService.send_referral`: CREATED → SENT, stamping `sent_at`. -/
def send_referral (db : DB) (referral_id : Nat) (now : Nat) :
    DB × Except Err Referral :=
  match db.findReferral referral_id with
  | none => (db, .error (.ReferralNotFound referral_id))
  | some referral =>
    if referral.status ≠ .CREATED then
      (db, .error (.InvalidTransition "send" referral.status))
    else
      let updated := { referral with status := .SENT, sent_at := some now }
      (updateReferral db updated, .ok updated)

/-- `ReferralService.accept_referral`: CREATED or SENT → ACCEPTED, stamping
`accepted_at` and recording the accepter. -/
def accept_referral (db : DB) (referral_id accepted_by : Nat) (now : Nat) :
    DB × Except Err Referral :=
  match db.findReferral referral_id with
  | none => (db, .error (.ReferralNotFound referral_id))
  | some referral =>
    if !(referral.status = .CREATED ∨ referral.status = .SENT : Bool) then
      (db, .error (.InvalidTransition "accept" referral.status))
    else
      let updated := { referral with
        status := .ACCEPTED
        accepted_at := some now
        accepted_by := some accepted_by }
      (updateReferral db updated, .ok updated)

/-- `ReferralService.mark_transferred`: ACCEPTED → TRANSFERRED, stamping
`transferred_at`. -/
def mark_transferred (db : DB) (referral_id : Nat) (now : Nat) :
    DB × Except Err Referral :=
  match db.findReferral referral_id with
  | none => (db, .error (.ReferralNotFound referral_id))
  | some referral =>
    if referral.status ≠ .ACCEPTED then
      (db, .error (.InvalidTransition "transfer" referral.status))
    else
      let updated := { referral with status := .TRANSFERRED, transferred_at := some now }
      (updateReferral db updated, .ok updated)

/-! ## ConnectionManager (`app/websocket/manager.py`) -/

/-- Opaque subscriber connection handle. -/
abbrev Conn := Nat

/-- `ConnectionManager`: the mutable list of live connections. -/
structure ConnectionManager where
  active_connections : List Conn
deriving DecidableEq

/-- `ConnectionManager.connect` (after the transport-level accept):
append the new connection. -/
def connect (m : ConnectionManager) (ws : Conn) : ConnectionManager :=
  { m with active_connections := m.active_connections ++ [ws] }

/-- `ConnectionManager.disconnect`: remove the first occurrence of the
connection if present, otherwise do nothing. -/
def disconnect (m : ConnectionManager) (ws : Conn) : ConnectionManager :=
  if ws ∈ m.active_connections then
    { m with active_connections := m.active_connections.erase ws }
  else
    m

/-- `ConnectionManager.broadcast`.  `sendOk c` tells whether
`c.send_json(message)` succeeds for this event.  The loop attempts delivery
to every connection in registration order, collecting in order the
successful deliveries and the failed connections; each failed connection is
then disconnected.  Returns the post-call manager and the list of
connections that received the event. -/
def broadcast (m : ConnectionManager) (sendOk : Conn → Bool) :
    ConnectionManager × List Conn :=
  let loop := m.active_connections.foldl
    (fun (acc : List Conn × List Conn) c =>
      if sendOk c then (acc.1 ++ [c], acc.2) else (acc.1, acc.2 ++ [c]))
    ([], [])
  (loop.2.foldl (fun mgr c => disconnect mgr c) m, loop.1)

/-! ## Transition traces over one referral

Scaffolding for stating lifecycle invariants: a `Step` is one call to
`send_referral`, `accept_referral` or `mark_transferred` together with the
`utcnow` reading it observes; a run applies the calls in order.  The wall
clock only moves forward, which `TimesMono` records. -/

/-- One transition call on a referral, with the `utcnow` value it reads. -/
inductive Step where
  | send (now : Nat)
  | accept (accepted_by : Nat) (now : Nat)
  | transfer (now : Nat)
deriving DecidableEq

/-- The `utcnow` reading a step observes. -/
def stepTime : Step → Nat
  | .send now => now
  | .accept _ now => now
  | .transfer now => now

/-- Dispatch one transition call against the database. -/
def applyStep (db : DB) (referral_id : Nat) : Step → DB × Except Err Referral
  | .send now => send_referral db referral_id now
  | .accept accepted_by now => accept_referral db referral_id accepted_by now
  | .transfer now => mark_transferred db referral_id now

/-- Apply a sequence of transition calls, keeping each post-call database
(whether the call succeeded or raised). -/
def runSteps (db : DB) (referral_id : Nat) : List Step → DB
  | [] => db
  | s :: rest => runSteps (applyStep db referral_id s).1 referral_id rest

/-- The `utcnow` readings of the steps never decrease, starting from a
given lower bound (the wall clock moves forward). -/
def TimesMono : Nat → List Step → Prop
  | _, [] => True
  | t, s :: rest => t ≤ stepTime s ∧ TimesMono (stepTime s) rest

/-- `t ≤` every value held by the option. -/
def leOpt (t : Nat) : Option Nat → Prop
  | none => True
  | some u => t ≤ u

/-- Every value held by the option is `≤ b`. -/
def optLE : Option Nat → Nat → Prop
  | none, _ => True
  | some t, b => t ≤ b

/-- When both options hold values, the first is `≤` the second. -/
def leOpt2 : Option Nat → Option Nat → Prop
  | some t, some u => t ≤ u
  | _, _ => True

/-- The timestamp/status invariant the lifecycle actually maintains: a
non-null stage timestamp means the status has reached that stage (for the
sent stage only this direction holds, because `accept` is legal straight
from CREATED and then never stamps `sent_at`); the accepted and transferred
timestamps are non-null exactly when their stage is reached; a referral
sitting exactly at SENT has its sent timestamp; and the non-null timestamps
are monotone along created ≤ sent ≤ accepted ≤ transferred. -/
def TsInvariant (r : Referral) : Prop :=
  (r.sent_at.isSome = true → 1 ≤ statusIdx r.status)
  ∧ (r.accepted_at.isSome = true ↔ 2 ≤ statusIdx r.status)
  ∧ (r.transferred_at.isSome = true ↔ 3 ≤ statusIdx r.status)
  ∧ (r.status = .SENT → r.sent_at.isSome = true)
  ∧ leOpt r.created_at r.sent_at
  ∧ leOpt r.created_at r.accepted_at
  ∧ leOpt r.created_at r.transferred_at
  ∧ leOpt2 r.sent_at r.accepted_at
  ∧ leOpt2 r.sent_at r.transferred_at
  ∧ leOpt2 r.accepted_at r.transferred_at

/-- All timestamps of the referral are `≤ b`: the referral was last touched
at or before clock value `b`. -/
def TsLE (r : Referral) (b : Nat) : Prop :=
  r.created_at ≤ b ∧ optLE r.sent_at b ∧ optLE r.accepted_at b ∧ optLE r.transferred_at b

/-- Timestamps are written at most once: every timestamp already set in `r`
survives unchanged into `r2`. -/
def TsPreserved (r r2 : Referral) : Prop :=
  r2.created_at = r.created_at
  ∧ (∀ t, r.sent_at = some t → r2.sent_at = some t)
  ∧ (∀ t, r.accepted_at = some t → r2.accepted_at = some t)
  ∧ (∀ t, r.transferred_at = some t → r2.transferred_at = some t)

/-! ## Concrete rows used by the closed instances -/

/-- A freshly created referral row, CREATED with only the creation
timestamp set. -/
def wRefCreated : Referral :=
  { id := 1, patient_id := 1, from_center_id := 1, to_center_id := 2
    status := .CREATED, priority := .CRITICAL, reason := none
    clinical_notes := none, created_at := 0, sent_at := none
    accepted_at := none, transferred_at := none, created_by := 1
    accepted_by := none }

/-- A database holding just that referral. -/
def wDB1 : DB := { patients := [], health_centers := [], referrals := [wRefCreated] }

/-- A patient assessed CRITICAL whose own facility is center 1. -/
def wPatCrit : Patient :=
  { id := 1, chest_pain := true, oxygen_saturation := none, heart_rate := none
    blood_pressure_systolic := none, triage_level := some .CRITICAL
    health_center_id := 1 }

/-- A basic clinic (a "Centre de Santé"). -/
def wCdS : HealthCenter := { id := 1, name := "CS Nord", center_type := "Centre de Santé" }

/-- A specialized hospital (a "CHU"). -/
def wCHU : HealthCenter := { id := 2, name := "CHU Central", center_type := "CHU" }

/-- Critical patient at the basic clinic, with a CHU available. -/
def wAutoDB : DB :=
  { patients := [wPatCrit], health_centers := [wCdS, wCHU], referrals := [] }

/-- A patient whose own facility is the CHU itself (center 1). -/
def wPatAtCHU : Patient :=
  { id := 1, chest_pain := false, oxygen_saturation := none, heart_rate := none
    blood_pressure_systolic := none, triage_level := some .CRITICAL
    health_center_id := 1 }

/-- Database where the patient's own facility is the only center, a CHU:
referral creation towards center 1 makes origin equal destination. -/
def wSelfDB : DB :=
  { patients := [wPatAtCHU]
    health_centers := [{ id := 1, name := "CHU Central", center_type := "CHU" }]
    referrals := [] }

/-! ## Theorems -/

/-- A cascade of CRITICAL-producing conditionals collapses to the
disjunction of its conditions. -/
lemma chain_ite (a b c d : Bool) :
    (if a then TriageLevel.CRITICAL
     else if b then TriageLevel.CRITICAL
     else if c then TriageLevel.CRITICAL
     else if d then TriageLevel.CRITICAL
     else TriageLevel.URGENT)
    = if a || b || c || d then TriageLevel.CRITICAL else TriageLevel.URGENT := by
  cases a <;> cases b <;> cases c <;> cases d <;> simp

/-- A two-valued conditional on triage levels equals CRITICAL exactly when
its condition holds. -/
lemma ite_level_eq_crit (c : Bool) :
    ((if c then TriageLevel.CRITICAL else TriageLevel.URGENT) = TriageLevel.CRITICAL)
      ↔ c = true := by
  cases c <;> simp

/-- A two-valued conditional on triage levels never yields NORMAL. -/
lemma ite_level_ne_normal (c : Bool) :
    (if c then TriageLevel.CRITICAL else TriageLevel.URGENT) ≠ TriageLevel.NORMAL := by
  cases c <;> simp

/-- A two-valued conditional on triage levels yields CRITICAL or URGENT. -/
lemma ite_level_total (c : Bool) :
    (if c then TriageLevel.CRITICAL else TriageLevel.URGENT) = TriageLevel.CRITICAL ∨
    (if c then TriageLevel.CRITICAL else TriageLevel.URGENT) = TriageLevel.URGENT := by
  cases c <;> simp

/-- C2: `assess_triage_level` is total and returns CRITICAL exactly when one
of the four rules fires — chest pain set, oxygen saturation present and
strictly below 90.0, heart rate present and outside (40, 150), or systolic
pressure present and outside (80, 180) — and URGENT otherwise; it never
returns NORMAL.  Oxygen saturation exactly 90.0 does not fire its rule. -/
theorem assess_triage_spec : ∀ p : Patient,
    (assess_triage_level p = TriageLevel.CRITICAL ↔
      (p.chest_pain = true
        ∨ (∃ o, p.oxygen_saturation = some o ∧ o < CRITICAL_OXYGEN_THRESHOLD)
        ∨ (∃ h, p.heart_rate = some h ∧ (150 < h ∨ h < 40))
        ∨ (∃ b, p.blood_pressure_systolic = some b ∧ (180 < b ∨ b < 80))))
    ∧ (assess_triage_level p = TriageLevel.CRITICAL
        ∨ assess_triage_level p = TriageLevel.URGENT)
    ∧ assess_triage_level p ≠ TriageLevel.NORMAL := by
  intro p
  obtain ⟨pid, cp, o2, hr, bp, tl, hcid⟩ := p
  have hite : assess_triage_level ⟨pid, cp, o2, hr, bp, tl, hcid⟩ =
      if cp || o2.any (fun o => decide (o < CRITICAL_OXYGEN_THRESHOLD))
         || hr.any (fun h => decide (h > 150) || decide (h < 40))
         || bp.any (fun b => decide (b > 180) || decide (b < 80))
      then TriageLevel.CRITICAL else TriageLevel.URGENT := by
    have hdef : assess_triage_level ⟨pid, cp, o2, hr, bp, tl, hcid⟩ =
        (if cp then TriageLevel.CRITICAL
         else if o2.any (fun o => decide (o < CRITICAL_OXYGEN_THRESHOLD)) then
           TriageLevel.CRITICAL
         else if hr.any (fun h => decide (h > 150) || decide (h < 40)) then
           TriageLevel.CRITICAL
         else if bp.any (fun b => decide (b > 180) || decide (b < 80)) then
           TriageLevel.CRITICAL
         else TriageLevel.URGENT) := rfl
    rw [hdef, chain_ite]
  have hbool : (cp || o2.any (fun o => decide (o < CRITICAL_OXYGEN_THRESHOLD))
      || hr.any (fun h => decide (h > 150) || decide (h < 40))
      || bp.any (fun b => decide (b > 180) || decide (b < 80))) = true ↔
      (cp = true
        ∨ (∃ o, o2 = some o ∧ o < CRITICAL_OXYGEN_THRESHOLD)
        ∨ (∃ h, hr = some h ∧ (150 < h ∨ h < 40))
        ∨ (∃ b, bp = some b ∧ (180 < b ∨ b < 80))) := by
    cases o2 <;> cases hr <;> cases bp <;> simp [Option.any, or_assoc]
  refine ⟨?_, ?_, ?_⟩ <;> rw [hite]
  · exact (ite_level_eq_crit _).trans hbool
  · exact ite_level_total _
  · exact ite_level_ne_normal _

/-- Concrete instance of C2: saturation 89.9 scores CRITICAL, saturation
exactly 90.0 with otherwise calm vitals scores URGENT (never NORMAL). -/
theorem assess_triage_spec_witness :
    assess_triage_level
      { id := 1, chest_pain := false, oxygen_saturation := some (899/10),
        heart_rate := some 80, blood_pressure_systolic := some 120,
        triage_level := none, health_center_id := 1 } = TriageLevel.CRITICAL
    ∧ assess_triage_level
      { id := 2, chest_pain := false, oxygen_saturation := some 90,
        heart_rate := some 80, blood_pressure_systolic := some 120,
        triage_level := none, health_center_id := 1 } = TriageLevel.URGENT := by
  constructor
  · exact ((assess_triage_spec _).1).mpr
      (Or.inr (Or.inl ⟨899/10, rfl, by norm_num [CRITICAL_OXYGEN_THRESHOLD]⟩))
  · rcases (assess_triage_spec
      { id := 2, chest_pain := false, oxygen_saturation := some 90,
        heart_rate := some 80, blood_pressure_systolic := some 120,
        triage_level := none, health_center_id := 1 }).2.1 with h | h
    · exact absurd (((assess_triage_spec _).1).mp h) (by norm_num [CRITICAL_OXYGEN_THRESHOLD])
    · exact h

/-- C1: for a referral present in the store, `send` succeeds exactly from
CREATED and moves it to SENT; `accept` succeeds exactly from CREATED or
SENT, moves it to ACCEPTED and records the accepter; `transfer` succeeds
exactly from ACCEPTED and moves it to TRANSFERRED.  From any other status
the call raises `InvalidTransition` naming the operation and the actual
current status and returns the database untouched, so status and all four
timestamps are unchanged. -/
theorem referral_transition_spec :
    ∀ (db : DB) (rid ab now : Nat) (r : Referral),
    db.findReferral rid = some r →
    ((r.status = .CREATED →
        send_referral db rid now =
          (updateReferral db { r with status := .SENT, sent_at := some now },
           .ok { r with status := .SENT, sent_at := some now }))
     ∧ (r.status ≠ .CREATED →
        send_referral db rid now = (db, .error (.InvalidTransition "send" r.status)))
     ∧ ((r.status = .CREATED ∨ r.status = .SENT) →
        accept_referral db rid ab now =
          (updateReferral db
            { r with status := .ACCEPTED, accepted_at := some now, accepted_by := some ab },
           .ok { r with status := .ACCEPTED, accepted_at := some now, accepted_by := some ab }))
     ∧ (¬(r.status = .CREATED ∨ r.status = .SENT) →
        accept_referral db rid ab now = (db, .error (.InvalidTransition "accept" r.status)))
     ∧ (r.status = .ACCEPTED →
        mark_transferred db rid now =
          (updateReferral db { r with status := .TRANSFERRED, transferred_at := some now },
           .ok { r with status := .TRANSFERRED, transferred_at := some now }))
     ∧ (r.status ≠ .ACCEPTED →
        mark_transferred db rid now = (db, .error (.InvalidTransition "transfer" r.status)))) := by
  intro db rid ab now r hfind
  refine ⟨?_, ?_, ?_, ?_, ?_, ?_⟩
  · intro hst
    simp [send_referral, hfind, hst]
  · intro hst
    simp [send_referral, hfind, hst]
  · intro hst
    rcases hst with h | h <;> simp [accept_referral, hfind, h]
  · intro hst
    obtain ⟨h1, h2⟩ := not_or.mp hst
    simp [accept_referral, hfind, h1, h2]
  · intro hst
    simp [mark_transferred, hfind, hst]
  · intro hst
    simp [mark_transferred, hfind, hst]

/-- Concrete instance of C1: on a stored CREATED referral, `send` commits
the SENT update while `transfer` called directly raises `InvalidTransition`
reporting status CREATED and leaves the database unchanged. -/
theorem referral_transition_spec_witness :
    send_referral wDB1 1 5 =
      (updateReferral wDB1 { wRefCreated with status := .SENT, sent_at := some 5 },
       .ok { wRefCreated with status := .SENT, sent_at := some 5 })
    ∧ mark_transferred wDB1 1 5 =
      (wDB1, .error (.InvalidTransition "transfer" Status.CREATED)) := by
  have h := referral_transition_spec wDB1 1 7 5 wRefCreated (by rfl)
  exact ⟨h.1 rfl, h.2.2.2.2.2 (by decide)⟩

/-- C7: `create_referral` raises `PatientNotFound` when the patient id does
not resolve, `InvalidHealthCenter` when either facility reference does not
resolve, and `DestinationNotCHU` when the resolved destination is not of
center type "CHU"; in every failure case the database is returned untouched,
so no referral is persisted. -/
theorem create_validation_spec :
    ∀ (db : DB) (pid tcid cb : Nat) (rsn cn : Option String) (now : Nat),
    (db.findPatient pid = none →
      create_referral db pid tcid cb rsn cn now = (db, .error (.PatientNotFound pid)))
    ∧ (∀ p, db.findPatient pid = some p →
        (db.findCenter p.health_center_id = none ∨ db.findCenter tcid = none) →
        create_referral db pid tcid cb rsn cn now = (db, .error .InvalidHealthCenter))
    ∧ (∀ p fc tc, db.findPatient pid = some p →
        db.findCenter p.health_center_id = some fc →
        db.findCenter tcid = some tc →
        tc.center_type ≠ "CHU" →
        create_referral db pid tcid cb rsn cn now = (db, .error .DestinationNotCHU)) := by
  intro db pid tcid cb rsn cn now
  refine ⟨?_, ?_, ?_⟩
  · intro hp
    simp [create_referral, hp]
  · intro p hp hor
    rcases hor with h | h
    · simp [create_referral, hp, h]
    · cases hfc : db.findCenter p.health_center_id <;>
        simp [create_referral, hp, h, hfc]
  · intro p fc tc hp hfc htc htype
    simp [create_referral, hp, hfc, htc, htype]

/-- Concrete instance of C7: an empty store rejects creation with
`PatientNotFound`, and a creation aimed at a basic clinic is rejected with
`DestinationNotCHU`, the database coming back unchanged both times. -/
theorem create_validation_spec_witness :
    create_referral { patients := [], health_centers := [], referrals := [] } 1 1 1 none none 0
      = ({ patients := [], health_centers := [], referrals := [] },
         .error (.PatientNotFound 1))
    ∧ create_referral wAutoDB 1 1 9 none none 0 = (wAutoDB, .error .DestinationNotCHU) := by
  refine ⟨(create_validation_spec _ 1 1 1 none none 0).1 (by rfl), ?_⟩
  exact (create_validation_spec wAutoDB 1 1 9 none none 0).2.2 wPatCrit wCdS wCdS
    (by rfl) (by rfl) (by rfl) (by decide)

/-- When the patient and both centers resolve and the destination is a CHU,
`create_referral` persists exactly the `newReferral` row and returns it. -/
lemma create_referral_ok (db : DB) (pid tcid cb : Nat) (rsn cn : Option String)
    (now : Nat) (p : Patient) (fc tc : HealthCenter)
    (hp : db.findPatient pid = some p)
    (hfc : db.findCenter p.health_center_id = some fc)
    (htc : db.findCenter tcid = some tc)
    (htype : tc.center_type = "CHU") :
    create_referral db pid tcid cb rsn cn now =
      ({ db with referrals := db.referrals ++ [newReferral db pid tcid cb rsn cn now p fc] },
       .ok (newReferral db pid tcid cb rsn cn now p fc)) := by
  simp [create_referral, hp, hfc, htc, htype]

/-- C4 fails on the code: with the patient's own facility being the CHU
picked as destination, `create_referral` succeeds — no `InvalidOrigin`
check exists — and persists a referral whose origin equals its
destination. -/
theorem origin_check_cex :
    ((create_referral wSelfDB 1 1 9 none none 0).2.toOption.map
        (fun r => (r.from_center_id, r.to_center_id, r.status))
      = some (1, 1, Status.CREATED))
    ∧ (create_referral wSelfDB 1 1 9 none none 0).1.referrals.length = 1 := by
  exact ⟨rfl, rfl⟩

/-- C4 amended: `create_referral` performs no origin ≠ destination check —
whenever the patient and both facilities resolve and the destination is of
center type "CHU", creation succeeds and persists the referral even when
the origin facility equals the destination, so persisted referrals can
violate origin ≠ destination. -/
theorem create_no_origin_check_spec :
    ∀ (db : DB) (pid tcid cb : Nat) (rsn cn : Option String) (now : Nat)
      (p : Patient) (fc tc : HealthCenter),
    db.findPatient pid = some p →
    db.findCenter p.health_center_id = some fc →
    db.findCenter tcid = some tc →
    tc.center_type = "CHU" →
    fc.id = tcid →
    ∃ r, create_referral db pid tcid cb rsn cn now =
          ({ db with referrals := db.referrals ++ [r] }, .ok r)
        ∧ r.from_center_id = r.to_center_id := by
  intro db pid tcid cb rsn cn now p fc tc hp hfc htc htype heq
  exact ⟨_, create_referral_ok db pid tcid cb rsn cn now p fc tc hp hfc htc htype,
    by simp [newReferral, heq]⟩

/-- Concrete instance of the amended C4: origin facility 1 equals
destination facility 1 and creation still persists a referral. -/
theorem create_no_origin_check_spec_witness :
    ∃ r, create_referral wSelfDB 1 1 9 none none 0 =
          ({ wSelfDB with referrals := wSelfDB.referrals ++ [r] }, .ok r)
        ∧ r.from_center_id = r.to_center_id :=
  create_no_origin_check_spec wSelfDB 1 1 9 none none 0 wPatAtCHU
    { id := 1, name := "CHU Central", center_type := "CHU" }
    { id := 1, name := "CHU Central", center_type := "CHU" }
    (by rfl) (by rfl) (by rfl) (by rfl) (by rfl)

/-- Replacing the row the lookup found, by an update that preserves an
observation `f`, preserves the `f`-image of the whole table, provided row
ids are pairwise distinct. -/
lemma map_update_of_pairwise {α : Type} (f : Referral → α) :
    ∀ (l : List Referral) (rid : Nat) (r upd : Referral),
    l.Pairwise (fun a b => a.id ≠ b.id) →
    l.find? (fun q => q.id == rid) = some r →
    upd.id = r.id →
    f upd = f r →
    (l.map (fun q => if q.id == upd.id then upd else q)).map f = l.map f := by
  intro l
  induction l with
  | nil => intro rid r upd _ hfind _ _; simp at hfind
  | cons a t ih =>
    intro rid r upd hpw hfind hid hf
    obtain ⟨ha, hpw'⟩ := List.pairwise_cons.mp hpw
    by_cases hhead : (a.id == rid) = true
    · rw [@List.find?_cons_of_pos Referral (fun q => q.id == rid) a t hhead] at hfind
      obtain rfl : a = r := by injection hfind
      have hceq : (a.id == upd.id) = true := by simp [hid]
      simp only [List.map_cons, hceq, if_pos, List.map_map]
      refine congrArg₂ _ hf ?_
      refine List.map_congr_left ?_
      intro q hq
      have hne : ¬ (q.id = upd.id) := by
        rw [hid]
        exact fun h => (ha q hq) h.symm
      simp [hne]
    · rw [@List.find?_cons_of_neg Referral (fun q => q.id == rid) a t
        (by simpa using hhead)] at hfind
      have hrid : (r.id == rid) = true := by
        have := List.find?_some hfind
        simpa using this
      have hceq : (a.id == upd.id) = false := by
        rw [hid]
        simp only [beq_eq_false_iff_ne]
        intro h
        rw [h] at hhead
        exact hhead hrid
      simp only [List.map_cons, hceq, if_neg, Bool.false_eq_true, not_false_eq_true]
      rw [ih rid r upd hpw' hfind hid hf]

/-- C6: the priority of a created referral is the patient's triage level at
creation time, defaulting to CRITICAL when the level is unset; and (over a
table with distinct row ids) none of `send`, `accept`, `transfer` changes
any referral's priority, so priority is immutable after creation. -/
theorem priority_spec :
    ∀ (db : DB) (pid tcid cb : Nat) (rsn cn : Option String) (now rid ab now2 : Nat),
    (∀ p db2 r, db.findPatient pid = some p →
        create_referral db pid tcid cb rsn cn now = (db2, .ok r) →
        r.priority = p.triage_level.getD TriageLevel.CRITICAL)
    ∧ (db.referrals.Pairwise (fun a b => a.id ≠ b.id) →
        ((send_referral db rid now2).1.referrals.map (fun r => (r.id, r.priority))
            = db.referrals.map (fun r => (r.id, r.priority)))
        ∧ ((accept_referral db rid ab now2).1.referrals.map (fun r => (r.id, r.priority))
            = db.referrals.map (fun r => (r.id, r.priority)))
        ∧ ((mark_transferred db rid now2).1.referrals.map (fun r => (r.id, r.priority))
            = db.referrals.map (fun r => (r.id, r.priority)))) := by
  intro db pid tcid cb rsn cn now rid ab now2
  constructor
  · intro p db2 r hp hcreate
    cases hfc : db.findCenter p.health_center_id with
    | none => simp [create_referral, hp, hfc, Prod.ext_iff] at hcreate
    | some fc =>
      cases htc : db.findCenter tcid with
      | none => simp [create_referral, hp, hfc, htc, Prod.ext_iff] at hcreate
      | some tc =>
        by_cases hty : tc.center_type = "CHU"
        · rw [create_referral_ok db pid tcid cb rsn cn now p fc tc hp hfc htc hty]
            at hcreate
          have hr : r = newReferral db pid tcid cb rsn cn now p fc := by
            have h2 := congrArg Prod.snd hcreate
            simpa using h2.symm
          simp [hr, newReferral]
        · simp [create_referral, hp, hfc, htc, hty, Prod.ext_iff] at hcreate
  · intro hpw
    refine ⟨?_, ?_, ?_⟩
    · cases hfind : db.findReferral rid with
      | none => simp [send_referral, hfind]
      | some r =>
        by_cases hst : r.status = .CREATED
        · simp only [send_referral, hfind, hst, ne_eq, not_true_eq_false, if_neg,
            not_false_eq_true, updateReferral]
          exact map_update_of_pairwise _ db.referrals rid r
            { r with status := .SENT, sent_at := some now2 } hpw hfind rfl rfl
        · simp [send_referral, hfind, hst]
    · cases hfind : db.findReferral rid with
      | none => simp [accept_referral, hfind]
      | some r =>
        by_cases hst : r.status = .CREATED ∨ r.status = .SENT
        · have hb : (decide (r.status = .CREATED ∨ r.status = .SENT)) = true := by
            simpa using hst
          simp only [accept_referral, hfind, hb, Bool.not_true, Bool.false_eq_true,
            if_neg, not_false_eq_true, updateReferral]
          exact map_update_of_pairwise _ db.referrals rid r
            { r with status := .ACCEPTED, accepted_at := some now2, accepted_by := some ab }
            hpw hfind rfl rfl
        · have hb : (decide (r.status = .CREATED ∨ r.status = .SENT)) = false := by
            simpa using hst
          simp [accept_referral, hfind, hb]
    · cases hfind : db.findReferral rid with
      | none => simp [mark_transferred, hfind]
      | some r =>
        by_cases hst : r.status = .ACCEPTED
        · simp only [mark_transferred, hfind, hst, ne_eq, not_true_eq_false, if_neg,
            not_false_eq_true, updateReferral]
          exact map_update_of_pairwise _ db.referrals rid r
            { r with status := .TRANSFERRED, transferred_at := some now2 } hpw hfind rfl rfl
        · simp [mark_transferred, hfind, hst]

/-- Concrete instance of C6: the auto-style creation copies a CRITICAL
triage level into the priority, and a committed `send` leaves every
(id, priority) pair of the table unchanged. -/
theorem priority_spec_witness :
    (newReferral wAutoDB 1 2 9 none none 0 wPatCrit wCdS).priority = TriageLevel.CRITICAL
    ∧ ((send_referral wDB1 1 5).1.referrals.map (fun r => (r.id, r.priority))
        = wDB1.referrals.map (fun r => (r.id, r.priority))) := by
  constructor
  · exact (priority_spec wAutoDB 1 2 9 none none 0 1 9 5).1 wPatCrit _ _ (by rfl) (by rfl)
  · exact ((priority_spec wDB1 1 2 1 none none 0 1 9 5).2 (by simp [wDB1])).1

/-- `should_create_referral` holds exactly for a CRITICAL patient whose own
facility resolves and is a "Centre de Santé". -/
lemma should_create_iff (p : Patient) (db : DB) :
    should_create_referral p db = true ↔
      (p.triage_level = some TriageLevel.CRITICAL
        ∧ ∃ hc, db.findCenter p.health_center_id = some hc
            ∧ hc.center_type = "Centre de Santé") := by
  unfold should_create_referral
  by_cases hcrit : p.triage_level = some TriageLevel.CRITICAL
  · cases hfc : db.findCenter p.health_center_id <;> simp [hcrit, hfc]
  · simp [hcrit]

/-- Over a directory with pairwise-distinct ids, looking a member center up
by its own id returns exactly that center. -/
lemma find_by_id_of_mem :
    ∀ (l : List HealthCenter) (c : HealthCenter),
    l.Pairwise (fun a b => a.id ≠ b.id) → c ∈ l →
    l.find? (fun q => q.id == c.id) = some c := by
  intro l
  induction l with
  | nil => intro c _ h; cases h
  | cons a t ih =>
    intro c hpw hmem
    obtain ⟨ha, hpw'⟩ := List.pairwise_cons.mp hpw
    rcases List.mem_cons.mp hmem with rfl | hmem'
    · rw [@List.find?_cons_of_pos HealthCenter (fun q => q.id == c.id) c t (by simp)]
    · have hne : (a.id == c.id) = false := by
        simp only [beq_eq_false_iff_ne]
        exact ha c hmem'
      rw [@List.find?_cons_of_neg HealthCenter (fun q => q.id == c.id) a t
        (by simp [hne])]
      exact ih c hpw' hmem'

/-- Under the auto-escalation conditions (CRITICAL patient at a resolved
"Centre de Santé", some CHU in a directory with distinct ids),
`auto_create_referral_for_critical_patient` persists exactly one new
CREATED referral towards the first CHU and returns it. -/
lemma auto_create_ok (db : DB) (pid cb now : Nat) (p : Patient)
    (hc chu : HealthCenter)
    (hpw : db.health_centers.Pairwise (fun a b => a.id ≠ b.id))
    (hp : db.findPatient pid = some p)
    (hcrit : p.triage_level = some TriageLevel.CRITICAL)
    (hhc : db.findCenter p.health_center_id = some hc)
    (htype : hc.center_type = "Centre de Santé")
    (hchu : findCHU db = some chu) :
    auto_create_referral_for_critical_patient db pid cb now =
      ({ db with referrals := db.referrals ++
          [newReferral db pid chu.id cb
            (some "Auto-referral: Critical case from Centre de Santé")
            (some ("Patient triage level: " ++ levelName p.triage_level)) now p hc] },
       .ok (some (newReferral db pid chu.id cb
            (some "Auto-referral: Critical case from Centre de Santé")
            (some ("Patient triage level: " ++ levelName p.triage_level)) now p hc))) := by
  have hshould : should_create_referral p db = true :=
    (should_create_iff p db).mpr ⟨hcrit, hc, hhc, htype⟩
  have hmem : chu ∈ db.health_centers := List.mem_of_find?_eq_some hchu
  have hctype : chu.center_type = "CHU" := by
    have := List.find?_some hchu
    simpa using this
  have hfindchu : db.findCenter chu.id = some chu :=
    find_by_id_of_mem db.health_centers chu hpw hmem
  have hcreate := create_referral_ok db pid chu.id cb
      (some "Auto-referral: Critical case from Centre de Santé")
      (some ("Patient triage level: " ++ levelName p.triage_level)) now p hc chu
      hp hhc hfindchu hctype
  simp [auto_create_referral_for_critical_patient, hp, hshould, hchu, hcreate]

/-- C3: for a resolved patient, auto-creation acts iff the patient's triage
level is CRITICAL and the patient's own facility resolves to a
"Centre de Santé".  If the conditions fail it is a no-op returning `none`;
if they hold but no CHU exists it is likewise a no-op returning `none`
rather than an error; if they hold and a CHU exists (ids being distinct),
exactly one new referral with status CREATED is persisted. -/
theorem auto_escalation_spec :
    ∀ (db : DB) (pid cb now : Nat) (p : Patient),
    db.findPatient pid = some p →
    ((¬(p.triage_level = some TriageLevel.CRITICAL
        ∧ ∃ hc, db.findCenter p.health_center_id = some hc
            ∧ hc.center_type = "Centre de Santé") →
      auto_create_referral_for_critical_patient db pid cb now = (db, .ok none))
    ∧ ((p.triage_level = some TriageLevel.CRITICAL
        ∧ ∃ hc, db.findCenter p.health_center_id = some hc
            ∧ hc.center_type = "Centre de Santé") →
        (findCHU db = none →
          auto_create_referral_for_critical_patient db pid cb now = (db, .ok none))
        ∧ (∀ chu, db.health_centers.Pairwise (fun a b => a.id ≠ b.id) →
            findCHU db = some chu →
            ∃ r, auto_create_referral_for_critical_patient db pid cb now =
                ({ db with referrals := db.referrals ++ [r] }, .ok (some r))
              ∧ r.status = .CREATED))) := by
  intro db pid cb now p hp
  constructor
  · intro hnot
    have hshould : should_create_referral p db = false := by
      cases h : should_create_referral p db with
      | false => rfl
      | true => exact absurd ((should_create_iff p db).mp h) hnot
    simp [auto_create_referral_for_critical_patient, hp, hshould]
  · intro hcond
    obtain ⟨hcrit, hc, hhc, htype⟩ := hcond
    have hshould : should_create_referral p db = true :=
      (should_create_iff p db).mpr ⟨hcrit, hc, hhc, htype⟩
    constructor
    · intro hnone
      simp [auto_create_referral_for_critical_patient, hp, hshould, hnone]
    · intro chu hpw hchu
      exact ⟨_, auto_create_ok db pid cb now p hc chu hpw hp hcrit hhc htype hchu, rfl⟩

/-- Concrete instance of C3: the CRITICAL patient at the basic clinic, with
a CHU present, gets exactly one CREATED referral persisted. -/
theorem auto_escalation_spec_witness :
    ∃ r, auto_create_referral_for_critical_patient wAutoDB 1 9 0 =
        ({ wAutoDB with referrals := wAutoDB.referrals ++ [r] }, .ok (some r))
      ∧ r.status = .CREATED := by
  have h := (auto_escalation_spec wAutoDB 1 9 0 wPatCrit (by rfl)).2
    ⟨rfl, wCdS, rfl, rfl⟩
  exact h.2 wCHU (by decide) (by rfl)

/-- C10: auto-creation deduplicates nothing — under the same escalation
conditions, two successive calls for the same still-critical patient each
persist a fresh CREATED referral, leaving two referrals appended to the
table. -/
theorem auto_create_no_dedup_spec :
    ∀ (db : DB) (pid cb now now2 : Nat) (p : Patient) (hc chu : HealthCenter),
    db.health_centers.Pairwise (fun a b => a.id ≠ b.id) →
    db.findPatient pid = some p →
    p.triage_level = some TriageLevel.CRITICAL →
    db.findCenter p.health_center_id = some hc →
    hc.center_type = "Centre de Santé" →
    findCHU db = some chu →
    ∃ r1 r2,
      auto_create_referral_for_critical_patient db pid cb now =
        ({ db with referrals := db.referrals ++ [r1] }, .ok (some r1))
      ∧ auto_create_referral_for_critical_patient
          { db with referrals := db.referrals ++ [r1] } pid cb now2 =
        ({ db with referrals := db.referrals ++ [r1, r2] }, .ok (some r2))
      ∧ r1.status = .CREATED ∧ r2.status = .CREATED := by
  intro db pid cb now now2 p hc chu hpw hp hcrit hhc htype hchu
  have h1 := auto_create_ok db pid cb now p hc chu hpw hp hcrit hhc htype hchu
  have h2 := auto_create_ok
    { db with referrals := db.referrals ++
        [newReferral db pid chu.id cb
          (some "Auto-referral: Critical case from Centre de Santé")
          (some ("Patient triage level: " ++ levelName p.triage_level)) now p hc] }
    pid cb now2 p hc chu hpw hp hcrit hhc htype hchu
  refine ⟨newReferral db pid chu.id cb
      (some "Auto-referral: Critical case from Centre de Santé")
      (some ("Patient triage level: " ++ levelName p.triage_level)) now p hc,
    newReferral
      { db with referrals := db.referrals ++
          [newReferral db pid chu.id cb
            (some "Auto-referral: Critical case from Centre de Santé")
            (some ("Patient triage level: " ++ levelName p.triage_level)) now p hc] }
      pid chu.id cb
      (some "Auto-referral: Critical case from Centre de Santé")
      (some ("Patient triage level: " ++ levelName p.triage_level)) now2 p hc,
    h1, ?_, rfl, rfl⟩
  rw [h2]
  simp [List.append_assoc]

/-- Concrete instance of C10: assessing the same critical patient twice
yields two distinct persisted CREATED referrals. -/
theorem auto_create_no_dedup_spec_witness :
    ∃ r1 r2,
      auto_create_referral_for_critical_patient wAutoDB 1 9 0 =
        ({ wAutoDB with referrals := wAutoDB.referrals ++ [r1] }, .ok (some r1))
      ∧ auto_create_referral_for_critical_patient
          { wAutoDB with referrals := wAutoDB.referrals ++ [r1] } 1 9 4 =
        ({ wAutoDB with referrals := wAutoDB.referrals ++ [r1, r2] }, .ok (some r2))
      ∧ r1.status = .CREATED ∧ r2.status = .CREATED :=
  auto_create_no_dedup_spec wAutoDB 1 9 0 4 wPatCrit wCdS wCHU
    (by decide) (by rfl) rfl (by rfl) rfl (by rfl)

/-- A bound on an optional timestamp transports along `≤`. -/
lemma optLE_mono : ∀ (o : Option Nat) (a b : Nat), optLE o a → a ≤ b → optLE o b := by
  intro o a b h hab
  cases o with
  | none => trivial
  | some t => exact le_trans h hab

/-- A bound on all timestamps of a referral transports along `≤`. -/
lemma tsLE_mono (r : Referral) (a b : Nat) (h : TsLE r a) (hab : a ≤ b) : TsLE r b :=
  ⟨le_trans h.1 hab, optLE_mono _ a b h.2.1 hab, optLE_mono _ a b h.2.2.1 hab,
    optLE_mono _ a b h.2.2.2 hab⟩

/-- Timestamp preservation is reflexive. -/
lemma tsPreserved_refl (r : Referral) : TsPreserved r r :=
  ⟨rfl, fun _ h => h, fun _ h => h, fun _ h => h⟩

/-- Timestamp preservation composes. -/
lemma tsPreserved_trans (r r1 r2 : Referral)
    (h1 : TsPreserved r r1) (h2 : TsPreserved r1 r2) : TsPreserved r r2 :=
  ⟨h2.1.trans h1.1, fun t h => h2.2.1 t (h1.2.1 t h),
    fun t h => h2.2.2.1 t (h1.2.2.1 t h), fun t h => h2.2.2.2 t (h1.2.2.2 t h)⟩

/-- Replacing the found row by an update carrying the same id makes the
lookup return the update. -/
lemma find?_map_update :
    ∀ (l : List Referral) (rid : Nat) (r upd : Referral),
    l.find? (fun q => q.id == rid) = some r → upd.id = r.id →
    (l.map (fun q => if q.id == upd.id then upd else q)).find? (fun q => q.id == rid)
      = some upd := by
  intro l
  induction l with
  | nil => intro rid r upd h _; simp at h
  | cons a t ih =>
    intro rid r upd hfind hid
    by_cases hhead : (a.id == rid) = true
    · rw [@List.find?_cons_of_pos Referral (fun q => q.id == rid) a t hhead] at hfind
      obtain rfl : a = r := by injection hfind
      have hceq : (a.id == upd.id) = true := by simp [hid]
      have hupd : (upd.id == rid) = true := by rw [hid]; exact hhead
      simp only [List.map_cons, hceq, if_pos]
      exact @List.find?_cons_of_pos Referral (fun q => q.id == rid) upd _ hupd
    · rw [@List.find?_cons_of_neg Referral (fun q => q.id == rid) a t
        (by simpa using hhead)] at hfind
      have hrid : (r.id == rid) = true := by
        have := List.find?_some hfind
        simpa using this
      have hceq : (a.id == upd.id) = false := by
        rw [hid]
        simp only [beq_eq_false_iff_ne]
        intro h
        rw [h] at hhead
        exact hhead hrid
      simp only [List.map_cons, hceq, Bool.false_eq_true, if_neg, not_false_eq_true]
      rw [@List.find?_cons_of_neg Referral (fun q => q.id == rid) a _
        (by simpa using hhead)]
      exact ih rid r upd hfind hid

/-- Database-level form of `find?_map_update`. -/
lemma findReferral_update (db : DB) (rid : Nat) (r upd : Referral)
    (hfind : db.findReferral rid = some r) (hid : upd.id = r.id) :
    (updateReferral db upd).findReferral rid = some upd :=
  find?_map_update db.referrals rid r upd hfind hid

/-- `send_referral` on a stored CREATED referral commits the SENT update. -/
lemma send_referral_ok (db : DB) (rid now : Nat) (r : Referral)
    (hfind : db.findReferral rid = some r) (hst : r.status = .CREATED) :
    send_referral db rid now =
      (updateReferral db { r with status := .SENT, sent_at := some now },
       .ok { r with status := .SENT, sent_at := some now }) := by
  simp [send_referral, hfind, hst]

/-- `send_referral` out of CREATED raises and leaves the database as is. -/
lemma send_referral_err (db : DB) (rid now : Nat) (r : Referral)
    (hfind : db.findReferral rid = some r) (hst : r.status ≠ .CREATED) :
    send_referral db rid now = (db, .error (.InvalidTransition "send" r.status)) := by
  simp [send_referral, hfind, hst]

/-- `accept_referral` on a stored CREATED-or-SENT referral commits the
ACCEPTED update. -/
lemma accept_referral_ok (db : DB) (rid ab now : Nat) (r : Referral)
    (hfind : db.findReferral rid = some r)
    (hst : r.status = .CREATED ∨ r.status = .SENT) :
    accept_referral db rid ab now =
      (updateReferral db
        { r with status := .ACCEPTED, accepted_at := some now, accepted_by := some ab },
       .ok { r with status := .ACCEPTED, accepted_at := some now, accepted_by := some ab }) := by
  rcases hst with h | h <;> simp [accept_referral, hfind, h]

/-- `accept_referral` out of CREATED/SENT raises and leaves the database
as is. -/
lemma accept_referral_err (db : DB) (rid ab now : Nat) (r : Referral)
    (hfind : db.findReferral rid = some r)
    (hst : ¬(r.status = .CREATED ∨ r.status = .SENT)) :
    accept_referral db rid ab now = (db, .error (.InvalidTransition "accept" r.status)) := by
  obtain ⟨h1, h2⟩ := not_or.mp hst
  simp [accept_referral, hfind, h1, h2]

/-- `mark_transferred` on a stored ACCEPTED referral commits the
TRANSFERRED update. -/
lemma mark_transferred_ok (db : DB) (rid now : Nat) (r : Referral)
    (hfind : db.findReferral rid = some r) (hst : r.status = .ACCEPTED) :
    mark_transferred db rid now =
      (updateReferral db { r with status := .TRANSFERRED, transferred_at := some now },
       .ok { r with status := .TRANSFERRED, transferred_at := some now }) := by
  simp [mark_transferred, hfind, hst]

/-- `mark_transferred` out of ACCEPTED raises and leaves the database
as is. -/
lemma mark_transferred_err (db : DB) (rid now : Nat) (r : Referral)
    (hfind : db.findReferral rid = some r) (hst : r.status ≠ .ACCEPTED) :
    mark_transferred db rid now = (db, .error (.InvalidTransition "transfer" r.status)) := by
  simp [mark_transferred, hfind, hst]

/-- One `send` call preserves the timestamp invariant, keeps the row
findable, never unsets a timestamp, and writes nothing later than its
clock reading. -/
lemma send_step (db : DB) (rid now : Nat) (r : Referral)
    (hfind : db.findReferral rid = some r) (hinv : TsInvariant r)
    (hle : TsLE r now) :
    ∃ r2, (send_referral db rid now).1.findReferral rid = some r2
      ∧ TsInvariant r2 ∧ TsLE r2 now ∧ TsPreserved r r2 := by
  by_cases hst : r.status = .CREATED
  · obtain ⟨h1, h2, h3, h4, c1, c2, c3, c12, c13, c23⟩ := hinv
    have hsent : r.sent_at = none := by
      cases hs : r.sent_at with
      | none => rfl
      | some t =>
        have := h1 (by simp [hs])
        rw [hst] at this
        simp [statusIdx] at this
    have hacc : r.accepted_at = none := by
      cases hs : r.accepted_at with
      | none => rfl
      | some t =>
        have := h2.mp (by simp [hs])
        rw [hst] at this
        simp [statusIdx] at this
    have htr : r.transferred_at = none := by
      cases hs : r.transferred_at with
      | none => rfl
      | some t =>
        have := h3.mp (by simp [hs])
        rw [hst] at this
        simp [statusIdx] at this
    refine ⟨{ r with status := .SENT, sent_at := some now }, ?_, ?_, ?_, ?_⟩
    · rw [send_referral_ok db rid now r hfind hst]
      exact findReferral_update db rid r _ hfind rfl
    · simp [TsInvariant, statusIdx, leOpt, optLE, leOpt2, hacc, htr, hle.1]
    · exact ⟨hle.1, by simp [optLE], by simp [optLE, hacc], by simp [optLE, htr]⟩
    · exact ⟨rfl, by simp [hsent], fun t h => h, fun t h => h⟩
  · refine ⟨r, ?_, hinv, hle, tsPreserved_refl r⟩
    rw [send_referral_err db rid now r hfind hst]
    exact hfind

/-- One `accept` call preserves the timestamp invariant, keeps the row
findable, never unsets a timestamp, and writes nothing later than its
clock reading. -/
lemma accept_step (db : DB) (rid ab now : Nat) (r : Referral)
    (hfind : db.findReferral rid = some r) (hinv : TsInvariant r)
    (hle : TsLE r now) :
    ∃ r2, (accept_referral db rid ab now).1.findReferral rid = some r2
      ∧ TsInvariant r2 ∧ TsLE r2 now ∧ TsPreserved r r2 := by
  by_cases hst : r.status = .CREATED ∨ r.status = .SENT
  · obtain ⟨h1, h2, h3, h4, c1, c2, c3, c12, c13, c23⟩ := hinv
    have hidx : statusIdx r.status ≤ 1 := by
      rcases hst with h | h <;> simp [h, statusIdx]
    have hacc : r.accepted_at = none := by
      cases hs : r.accepted_at with
      | none => rfl
      | some t =>
        have := h2.mp (by simp [hs])
        omega
    have htr : r.transferred_at = none := by
      cases hs : r.transferred_at with
      | none => rfl
      | some t =>
        have := h3.mp (by simp [hs])
        omega
    refine ⟨{ r with status := .ACCEPTED, accepted_at := some now, accepted_by := some ab },
      ?_, ?_, ?_, ?_⟩
    · rw [accept_referral_ok db rid ab now r hfind hst]
      exact findReferral_update db rid r _ hfind rfl
    · refine ⟨?_, ?_, ?_, ?_, ?_, ?_, ?_, ?_, ?_, ?_⟩
      · simp [statusIdx]
      · simp [statusIdx]
      · simp [statusIdx, htr]
      · simp
      · exact c1
      · simp [leOpt, hle.1]
      · simp [leOpt, htr]
      · cases hs : r.sent_at with
        | none => simp [leOpt2]
        | some t =>
          have hb : t ≤ now := by
            have := hle.2.1
            rw [hs] at this
            exact this
          simp [leOpt2, hb]
      · simp [leOpt2, htr]
      · simp [leOpt2, htr]
    · exact ⟨hle.1, hle.2.1, by simp [optLE], hle.2.2.2⟩
    · exact ⟨rfl, fun t h => h, by simp [hacc], fun t h => h⟩
  · refine ⟨r, ?_, hinv, hle, tsPreserved_refl r⟩
    rw [accept_referral_err db rid ab now r hfind hst]
    exact hfind

/-- One `transfer` call preserves the timestamp invariant, keeps the row
findable, never unsets a timestamp, and writes nothing later than its
clock reading. -/
lemma transfer_step (db : DB) (rid now : Nat) (r : Referral)
    (hfind : db.findReferral rid = some r) (hinv : TsInvariant r)
    (hle : TsLE r now) :
    ∃ r2, (mark_transferred db rid now).1.findReferral rid = some r2
      ∧ TsInvariant r2 ∧ TsLE r2 now ∧ TsPreserved r r2 := by
  by_cases hst : r.status = .ACCEPTED
  · obtain ⟨h1, h2, h3, h4, c1, c2, c3, c12, c13, c23⟩ := hinv
    have htr : r.transferred_at = none := by
      cases hs : r.transferred_at with
      | none => rfl
      | some t =>
        have := h3.mp (by simp [hs])
        rw [hst] at this
        simp [statusIdx] at this
    have haccS : r.accepted_at.isSome = true := h2.mpr (by simp [hst, statusIdx])
    refine ⟨{ r with status := .TRANSFERRED, transferred_at := some now }, ?_, ?_, ?_, ?_⟩
    · rw [mark_transferred_ok db rid now r hfind hst]
      exact findReferral_update db rid r _ hfind rfl
    · refine ⟨?_, ?_, ?_, ?_, ?_, ?_, ?_, ?_, ?_, ?_⟩
      · simp [statusIdx]
      · simp [statusIdx, haccS]
      · simp [statusIdx]
      · simp
      · exact c1
      · exact c2
      · simp [leOpt, hle.1]
      · exact c12
      · cases hs : r.sent_at with
        | none => simp [leOpt2]
        | some t =>
          have hb : t ≤ now := by
            have := hle.2.1
            rw [hs] at this
            exact this
          simp [leOpt2, hb]
      · cases hs : r.accepted_at with
        | none => simp [leOpt2]
        | some t =>
          have hb : t ≤ now := by
            have := hle.2.2.1
            rw [hs] at this
            exact this
          simp [leOpt2, hb]
    · exact ⟨hle.1, hle.2.1, hle.2.2.1, by simp [optLE]⟩
    · exact ⟨rfl, fun t h => h, fun t h => h, by simp [htr]⟩
  · refine ⟨r, ?_, hinv, hle, tsPreserved_refl r⟩
    rw [mark_transferred_err db rid now r hfind hst]
    exact hfind

/-- Any single transition call preserves the timestamp invariant. -/
lemma step_preserves (db : DB) (rid : Nat) (s : Step) (r : Referral)
    (hfind : db.findReferral rid = some r) (hinv : TsInvariant r)
    (hle : TsLE r (stepTime s)) :
    ∃ r2, (applyStep db rid s).1.findReferral rid = some r2
      ∧ TsInvariant r2 ∧ TsLE r2 (stepTime s) ∧ TsPreserved r r2 := by
  cases s with
  | send now => exact send_step db rid now r hfind hinv hle
  | accept ab now => exact accept_step db rid ab now r hfind hinv hle
  | transfer now => exact transfer_step db rid now r hfind hinv hle

/-- Any run of transition calls under a forward-moving clock preserves the
timestamp invariant and never rewrites an already-set timestamp. -/
lemma run_preserves :
    ∀ (steps : List Step) (db : DB) (rid : Nat) (r : Referral) (t0 : Nat),
    db.findReferral rid = some r → TsInvariant r → TsLE r t0 →
    TimesMono t0 steps →
    ∃ r2, (runSteps db rid steps).findReferral rid = some r2
      ∧ TsInvariant r2 ∧ TsPreserved r r2 := by
  intro steps
  induction steps with
  | nil =>
    intro db rid r t0 hfind hinv _ _
    exact ⟨r, hfind, hinv, tsPreserved_refl r⟩
  | cons s rest ih =>
    intro db rid r t0 hfind hinv hle hmono
    obtain ⟨hts, hmono'⟩ := hmono
    obtain ⟨r1, hfind1, hinv1, hle1, hpres1⟩ :=
      step_preserves db rid s r hfind hinv (tsLE_mono r t0 (stepTime s) hle hts)
    obtain ⟨r2, hfind2, hinv2, hpres2⟩ :=
      ih (applyStep db rid s).1 rid r1 (stepTime s) hfind1 hinv1 hle1 hmono'
    exact ⟨r2, hfind2, hinv2, tsPreserved_trans r r1 r2 hpres1 hpres2⟩

/-- Inversion of a successful creation: the patient and origin resolved and
the returned row is exactly the `newReferral` row. -/
lemma create_referral_inv (db db2 : DB) (pid tcid cb : Nat)
    (rsn cn : Option String) (now : Nat) (r0 : Referral)
    (h : create_referral db pid tcid cb rsn cn now = (db2, .ok r0)) :
    ∃ p fc, db.findPatient pid = some p
      ∧ db.findCenter p.health_center_id = some fc
      ∧ r0 = newReferral db pid tcid cb rsn cn now p fc := by
  cases hp : db.findPatient pid with
  | none => simp [create_referral, hp, Prod.ext_iff] at h
  | some p =>
    cases hfc : db.findCenter p.health_center_id with
    | none => simp [create_referral, hp, hfc, Prod.ext_iff] at h
    | some fc =>
      cases htc : db.findCenter tcid with
      | none => simp [create_referral, hp, hfc, htc, Prod.ext_iff] at h
      | some tc =>
        by_cases hty : tc.center_type = "CHU"
        · rw [create_referral_ok db pid tcid cb rsn cn now p fc tc hp hfc htc hty] at h
          have h2 := congrArg Prod.snd h
          simp at h2
          exact ⟨p, fc, rfl, hfc, h2.symm⟩
        · simp [create_referral, hp, hfc, htc, hty, Prod.ext_iff] at h

/-- A freshly constructed referral row satisfies the timestamp invariant
and carries no timestamp beyond its creation instant. -/
lemma newReferral_inv (db : DB) (pid tcid cb : Nat) (rsn cn : Option String)
    (now : Nat) (p : Patient) (fc : HealthCenter) :
    TsInvariant (newReferral db pid tcid cb rsn cn now p fc)
    ∧ TsLE (newReferral db pid tcid cb rsn cn now p fc) now := by
  constructor <;> simp [TsInvariant, TsLE, newReferral, statusIdx, leOpt, optLE, leOpt2]

/-- C5 fails as stated: `accept` is legal straight from CREATED and stamps
only `accepted_at`, so the resulting stored referral has status ACCEPTED —
past the SENT stage — while `sent_at` is still null. -/
theorem stage_timestamp_iff_cex :
    ((accept_referral (create_referral wAutoDB 1 2 9 none none 0).1 1 4 3).1.findReferral 1).map
      (fun r => (r.status, r.sent_at)) = some (Status.ACCEPTED, none) := by
  rfl

/-- C5 amended: along every run of transitions under a forward-moving
clock, a created referral keeps the invariant that a non-null stage
timestamp implies the stage was reached (with the accepted and transferred
stages exactly characterised, while `sent_at` may stay null when `accept`
skipped SENT), every set timestamp is never rewritten, and the non-null
timestamps are monotone along created ≤ sent ≤ accepted ≤ transferred. -/
theorem referral_timestamps_spec :
    ∀ (db db2 : DB) (pid tcid cb : Nat) (rsn cn : Option String) (t0 : Nat)
      (r0 : Referral) (rid : Nat) (steps : List Step),
    (create_referral db pid tcid cb rsn cn t0 = (db2, .ok r0) →
      TsInvariant r0 ∧ TsLE r0 t0 ∧ r0.created_at = t0 ∧ r0.status = .CREATED)
    ∧ (∀ r, db.findReferral rid = some r → TsInvariant r → TsLE r t0 →
        TimesMono t0 steps →
        ∃ r2, (runSteps db rid steps).findReferral rid = some r2
          ∧ TsInvariant r2 ∧ TsPreserved r r2) := by
  intro db db2 pid tcid cb rsn cn t0 r0 rid steps
  constructor
  · intro hcreate
    obtain ⟨p, fc, hp, hfc, hr0⟩ :=
      create_referral_inv db db2 pid tcid cb rsn cn t0 r0 hcreate
    obtain ⟨hi, hl⟩ := newReferral_inv db pid tcid cb rsn cn t0 p fc
    exact ⟨hr0 ▸ hi, hr0 ▸ hl, by rw [hr0]; rfl, by rw [hr0]; rfl⟩
  · intro r hfind hinv hle hmono
    exact run_preserves steps db rid r t0 hfind hinv hle hmono

/-- Concrete instance of the amended C5: running send, accept, transfer at
increasing clock readings on a freshly created referral lands on a stored
row still satisfying the timestamp invariant, with the original creation
timestamp preserved. -/
theorem referral_timestamps_spec_witness :
    ∃ r2, (runSteps wDB1 1 [Step.send 2, Step.accept 7 3, Step.transfer 5]).findReferral 1
        = some r2
      ∧ TsInvariant r2 ∧ TsPreserved wRefCreated r2 :=
  (referral_timestamps_spec wDB1 wDB1 1 2 1 none none 0 wRefCreated 1
      [Step.send 2, Step.accept 7 3, Step.transfer 5]).2 wRefCreated
    (by rfl)
    (by simp [TsInvariant, wRefCreated, statusIdx, leOpt, optLE, leOpt2])
    (by simp [TsLE, wRefCreated, optLE])
    (by simp [TimesMono, stepTime])

/-- The delivery loop of `broadcast` partitions the connection list, in
order, into successful deliveries and failed connections. -/
lemma broadcast_loop_eq (sendOk : Conn → Bool) :
    ∀ (l d x : List Conn),
    l.foldl (fun (acc : List Conn × List Conn) c =>
        if sendOk c then (acc.1 ++ [c], acc.2) else (acc.1, acc.2 ++ [c])) (d, x)
      = (d ++ l.filter sendOk, x ++ l.filter (fun c => !(sendOk c))) := by
  intro l
  induction l with
  | nil => intro d x; simp
  | cons a t ih =>
    intro d x
    by_cases h : sendOk a = true
    · simp [List.foldl_cons, h, ih, List.filter_cons, List.append_assoc]
    · have h2 : sendOk a = false := by simpa using h
      simp [List.foldl_cons, h2, ih, List.filter_cons, List.append_assoc]

/-- `disconnect` is plain erasure: erasing an absent element is already a
no-op. -/
lemma disconnect_eq_erase (m : ConnectionManager) (ws : Conn) :
    disconnect m ws = { m with active_connections := m.active_connections.erase ws } := by
  unfold disconnect
  by_cases h : ws ∈ m.active_connections
  · simp [h]
  · simp [h, List.erase_of_not_mem h]

/-- Disconnecting each element of a list in turn computes a list
difference on the registry. -/
lemma fold_disconnect (xs : List Conn) :
    ∀ (m : ConnectionManager),
    (xs.foldl (fun mgr c => disconnect mgr c) m).active_connections
      = m.active_connections.diff xs := by
  induction xs with
  | nil => intro m; simp
  | cons a t ih =>
    intro m
    rw [List.foldl_cons, ih, disconnect_eq_erase]
    simp [List.diff_cons]

/-- Removing from a list exactly its elements failing `p` leaves exactly
its elements satisfying `p`. -/
lemma diff_filter_not (p : Conn → Bool) :
    ∀ (l : List Conn), l.diff (l.filter (fun c => !(p c))) = l.filter p := by
  intro l
  induction l with
  | nil => simp
  | cons a t ih =>
    by_cases h : p a = true
    · have hna : a ∉ t.filter (fun c => !(p c)) := by
        intro hmem
        have := (List.mem_filter.mp hmem).2
        simp [h] at this
      rw [List.filter_cons_of_neg, List.filter_cons_of_pos]
      · rw [List.cons_diff_of_not_mem hna, ih]
      · exact h
      · simp [h]
    · have h2 : p a = false := by simpa using h
      rw [List.filter_cons_of_pos, List.filter_cons_of_neg]
      · rw [List.diff_cons, List.erase_cons_head, ih]
      · simp [h2]
      · simp [h2]

/-- C8: `broadcast` attempts delivery to every registered connection
independently — the event is observed by exactly the connections whose
send succeeds, in registration order, regardless of failures before or
between them — every failed connection is removed from the registry by the
end of the call, every successful one stays, and the call is a total
function (it raises nothing to its caller). -/
theorem broadcast_fanout_spec :
    ∀ (m : ConnectionManager) (sendOk : Conn → Bool),
    (broadcast m sendOk).2 = m.active_connections.filter sendOk
    ∧ ((broadcast m sendOk).1).active_connections
        = m.active_connections.filter sendOk := by
  intro m sendOk
  simp only [broadcast]
  rw [broadcast_loop_eq sendOk m.active_connections [] []]
  simp only [List.nil_append]
  refine ⟨by first | rfl | trivial, ?_⟩
  rw [fold_disconnect]
  exact diff_filter_not sendOk m.active_connections

/-- Concrete instance of C8: with three subscribers of which the second
always fails, the event still reaches subscribers one and three and the
second is dropped from the registry. -/
theorem broadcast_fanout_spec_witness :
    (broadcast ⟨[1, 2, 3]⟩ (fun c => !(c == 2))).2 = [1, 3]
    ∧ (broadcast ⟨[1, 2, 3]⟩ (fun c => !(c == 2))).1.active_connections = [1, 3] := by
  have h := broadcast_fanout_spec ⟨[1, 2, 3]⟩ (fun c => !(c == 2))
  exact ⟨h.1.trans (by rfl), h.2.trans (by rfl)⟩

/-- C9 fails as stated over arbitrary registry states: a handle registered
twice (the `connect` path appends unconditionally) is removed once per
`disconnect` call, so the second call still changes the registry. -/
theorem unsubscribe_idem_cex :
    disconnect (disconnect ⟨[0, 0]⟩ 0) 0 ≠ disconnect ⟨[0, 0]⟩ 0 := by
  decide

/-- C9 amended: on every registry without duplicate handles, `disconnect`
is idempotent; and for a handle not present (or never present), a single
`disconnect` is already a no-op and does not fail. -/
theorem unsubscribe_idem_spec :
    ∀ (m : ConnectionManager) (ws : Conn),
    (m.active_connections.Nodup →
      disconnect (disconnect m ws) ws = disconnect m ws)
    ∧ (ws ∉ m.active_connections → disconnect m ws = m) := by
  intro m ws
  constructor
  · intro hnd
    by_cases h : ws ∈ m.active_connections
    · have h3 : ws ∉ m.active_connections.erase ws := List.Nodup.not_mem_erase hnd
      have h2 : ws ∉ (disconnect m ws).active_connections := by
        rw [disconnect_eq_erase]
        exact h3
      rw [show disconnect (disconnect m ws) ws =
          if ws ∈ (disconnect m ws).active_connections then
            { disconnect m ws with
              active_connections := (disconnect m ws).active_connections.erase ws }
          else disconnect m ws from rfl, if_neg h2]
    · have hm : disconnect m ws = m := by simp [disconnect, h]
      rw [hm, hm]
  · intro h
    simp [disconnect, h]

/-- Concrete instance of the amended C9: on a duplicate-free registry a
second `disconnect` changes nothing, and disconnecting an unknown handle
is a no-op. -/
theorem unsubscribe_idem_spec_witness :
    disconnect (disconnect ⟨[0, 1]⟩ 0) 0 = disconnect ⟨[0, 1]⟩ 0
    ∧ disconnect ⟨[0, 1]⟩ 5 = ⟨[0, 1]⟩ := by
  have h := unsubscribe_idem_spec ⟨[0, 1]⟩ 0
  have h5 := unsubscribe_idem_spec ⟨[0, 1]⟩ 5
  exact ⟨h.1 (by decide), h5.2 (by decide)⟩

end CareEscalation
